import Mathlib

/-!
# A bounded buffer of facts with one producer, one handler and a shutdown goroutine

Shallow embedding of `src/main.go`.

* The Go channel `buffer` (`make(chan Fact, 1000)`) is a record `Chan` holding the queued
  elements (oldest first), the capacity and the closed flag.  The channel operations follow
  the Go runtime: a send on a closed channel panics, a non-blocking send on a full channel
  takes the `default` branch, a receive on a closed channel first drains the queued elements
  and then reports `ok = false`.  A goroutine that would park is reported as `Blocked` and
  the channel is left as it was, so that the receive is simply tried again later.
* A Go function that may panic returns `Res _`; `recover()` in a deferred function
  turns the error back into a normal return.
* A `select` with several ready cases takes one of them at random; the random choice is an
  explicit argument `pick` (`true`: the receive from `buffer`, `false`: `ctx.Done()`).
* `sendFact` (the HTTP call) is a parameter: for the `n`-th call and the fact it says whether
  the returned error is `nil`.
-/

namespace Buffer

/-- Fact is the record sent to the server (`type Fact struct`). -/
structure Fact where
  PeriodStart : String
  PeriodEnd : String
  PeriodKey : String
  IndicatorToMoID : Int
  IndicatorToMoFactID : Int
  Value : Int
  FactTime : String
  IsPlan : Int
  AuthUserID : Int
  Comment : String
deriving DecidableEq, Repr

/-- Run-time panics of the channel operations used by the program. -/
inductive Panic where
  | sendOnClosedChannel
  | closeOfClosedChannel
deriving DecidableEq, Repr

/-- State of a Go channel of facts: queued elements (oldest first), capacity and closed flag.
A receiver parked on the empty channel is not part of the state.  On a channel with a buffer
(`cap` at least 1, as in `main`) a send that wakes a parked receiver is a send into the
buffer followed by the receive (`trySend_then_chanRecv`), so `trySend` describes every send.
On an unbuffered channel (`cap = 0`) it does not: there the send to a parked receiver is
`trySendParked`. -/
structure Chan where
  items : List Fact
  cap : Nat
  closed : Bool
deriving DecidableEq, Repr

/-- The channel created by `make(chan Fact, n)`: open and empty. -/
def makeChan (n : Nat) : Chan :=
  { items := [], cap := n, closed := false }

/-- Result of a Go function that either returns normally or panics. -/
inductive Res (α : Type) where
  | ok (val : α)
  | panic (r : Panic)
deriving DecidableEq, Repr

/-- Non-blocking send `select { case c <- x: ... default: ... }` with no receiver parked on
the channel: panics on a closed channel, appends when there is room (`true`), and otherwise
takes `default` (`false`). -/
def trySend (c : Chan) (x : Fact) : Res (Chan × Bool) :=
  if c.closed then .panic .sendOnClosedChannel
  else if c.items.length < c.cap then .ok ({ c with items := c.items ++ [x] }, true)
  else .ok (c, false)

/-- The builtin `close(c)`: panics when the channel is already closed. -/
def chanClose (c : Chan) : Res Chan :=
  if c.closed then .panic .closeOfClosedChannel
  else .ok { c with closed := true }

/-- Lines written with `log.Println` / `log.Printf` by the core of the program. -/
inductive LogEvent where
  /-- Line "Запись добавлена в буфер:". -/
  | added (fact : Fact)
  /-- Line "Буфер переполнен, запись пропущена". -/
  | overflow
  /-- Line "Паника при записи в буфер:". -/
  | sendPanic (r : Panic)
  /-- Line "Обрабатываем запись:". -/
  | processing (fact : Fact)
  /-- Line "Ошибка отправки записи:". -/
  | sendError
  /-- Line "Запись успешно сохранена". -/
  | saved
  /-- Line "Буфер закрыт, завершаем обработчик". -/
  | bufferClosed
  /-- Line "Остановка обработчика буфера". -/
  | handlerStopped
deriving DecidableEq, Repr

/-- Body of `safeSendToBuffer` without the deferred `recover`: the `select` with `default`. -/
def safeSendToBufferBody (buffer : Chan) (fact : Fact) : Res (Chan × LogEvent) :=
  match trySend buffer fact with
  | .panic r => .panic r
  | .ok (b, true) => .ok (b, .added fact)
  | .ok (b, false) => .ok (b, .overflow)

/-- The function `safeSendToBuffer`: the body above under `defer func() { recover() ... }()`.
A panic of the body is logged and the function returns normally; the channel is the one the
panicking send left behind, which is the channel it was given. -/
def safeSendToBuffer (buffer : Chan) (fact : Fact) : Res (Chan × LogEvent) :=
  match safeSendToBufferBody buffer fact with
  | .panic r => .ok (buffer, .sendPanic r)
  | .ok res => .ok res

/-- Non-blocking send `select { case c <- x: ... default: ... }` while a receiver is parked
on the channel (the handler waiting in its `select` on the open empty channel): the runtime
hands the value to the receiver directly, whatever the capacity, so the send case is taken
(`true`) and the queued elements are as before; a closed channel panics. -/
def trySendParked (c : Chan) (_x : Fact) : Res (Chan × Bool) :=
  if c.closed then .panic .sendOnClosedChannel
  else .ok (c, true)

/-- The function `safeSendToBuffer` called while the handler is parked on the channel: the
same body and deferred `recover`, the send being `trySendParked`. -/
def safeSendToBufferParked (buffer : Chan) (fact : Fact) : Res (Chan × LogEvent) :=
  match trySendParked buffer fact with
  | .panic r => .ok (buffer, .sendPanic r)
  | .ok (b, true) => .ok (b, .added fact)
  | .ok (b, false) => .ok (b, .overflow)

/-- Outcome of an enqueue attempt in the vocabulary of the specification. -/
inductive Enqueue where
  | Accepted
  | Dropped
deriving DecidableEq, Repr

/-- Reading of the log line of `safeSendToBuffer` as an enqueue outcome: only the "added"
line means that the item is in the buffer. -/
def LogEvent.outcome : LogEvent → Enqueue
  | .added _ => .Accepted
  | _ => .Dropped

/-- Outcome of one `select` of the handler. -/
inductive Dequeue where
  | Item (fact : Fact)
  | Closed
  | Cancelled
  | Blocked
deriving DecidableEq, Repr

/-- The receive case `fact, ok := <-buffer` is ready when an element is queued or the channel
is closed. -/
def recvReady (c : Chan) : Bool :=
  !c.items.isEmpty || c.closed

/-- Receive `fact, ok := <-c`: the oldest queued element, or `ok = false` on a closed and
drained channel, or parking on an open empty one. -/
def chanRecv (c : Chan) : Chan × Dequeue :=
  match c.items with
  | x :: rest => ({ c with items := rest }, .Item x)
  | [] => if c.closed then (c, .Closed) else (c, .Blocked)

/-- The `select` of `processQueue` over `<-buffer` and `<-ctx.Done()`.  `done` says whether
the context is cancelled; when both cases are ready `pick` is the random choice of the
runtime (`true`: the receive). -/
def selectRecv (buffer : Chan) (done : Bool) (pick : Bool) : Chan × Dequeue :=
  if recvReady buffer && (!done || pick) then chanRecv buffer
  else if done then (buffer, .Cancelled)
  else (buffer, .Blocked)

/-- How a run of the handler loop ended. -/
inductive Status where
  | returnedClosed
  | returnedCancelled
  | parked
  | outOfFuel
deriving DecidableEq, Repr

/-- Observable result of running `processQueue`: the channel, the facts passed to `sendFact`
in call order, the log and the way the loop ended. -/
structure Run where
  buffer : Chan
  calls : List Fact
  log : List LogEvent
  status : Status
deriving DecidableEq, Repr

/-- The loop of `processQueue`.  `done n` and `pick n` are the state of `ctx.Done()` and the
random choice seen by the `select` of iteration `n`; `sendFact k fact` says whether the
`k`-th call of `sendFact` returned a nil error. -/
def processQueueLoop (done pick : Nat → Bool) (sendFact : Nat → Fact → Bool) :
    Nat → Nat → Chan → List Fact → List LogEvent → Run
  | 0, _, buffer, calls, log => ⟨buffer, calls, log, .outOfFuel⟩
  | fuel + 1, n, buffer, calls, log =>
    match selectRecv buffer (done n) (pick n) with
    | (b, .Item fact) =>
      let log1 := log ++ [LogEvent.processing fact]
      let log2 := if sendFact calls.length fact then log1 ++ [LogEvent.saved]
        else log1 ++ [LogEvent.sendError]
      processQueueLoop done pick sendFact fuel (n + 1) b (calls ++ [fact]) log2
    | (b, .Closed) => ⟨b, calls, log ++ [LogEvent.bufferClosed], .returnedClosed⟩
    | (b, .Cancelled) => ⟨b, calls, log ++ [LogEvent.handlerStopped], .returnedCancelled⟩
    | (b, .Blocked) => ⟨b, calls, log, .parked⟩

/-- The function `processQueue` started on `buffer`. -/
def processQueue (done pick : Nat → Bool) (sendFact : Nat → Fact → Bool) (fuel : Nat)
    (buffer : Chan) : Run :=
  processQueueLoop done pick sendFact fuel 0 buffer [] []

/-- Successive calls of `safeSendToBuffer` with the facts of a list, nothing else touching
the channel in between; the log lines are collected in order. -/
def sendAll : Chan → List Fact → Chan × List LogEvent
  | c, [] => (c, [])
  | c, x :: xs =>
    match safeSendToBuffer c x with
    | .ok (c1, ev) => let r := sendAll c1 xs; (r.1, ev :: r.2)
    | .panic _ => (c, [])

/-- Perform `n` successive `select`s of the handler, nothing else touching the channel in
between; the outcomes are collected in order. -/
def recvN (done pick : Nat → Bool) : Nat → Nat → Chan → Chan × List Dequeue
  | 0, _, c => (c, [])
  | n + 1, i, c =>
    let r := selectRecv c (done i) (pick i)
    let rest := recvN done pick n (i + 1) r.1
    (rest.1, r.2 :: rest.2)

/-- The fact built in iteration `i` of the producer goroutine of `main`. -/
def producerFact (i : Nat) : Fact :=
  { PeriodStart := "2024-12-01"
    PeriodEnd := "2024-12-31"
    PeriodKey := "month"
    IndicatorToMoID := 227373
    IndicatorToMoFactID := 0
    Value := (i : Int)
    FactTime := "2024-12-31"
    IsPlan := 0
    AuthUserID := 40
    Comment := "buffer Trigubchak test " ++ toString i }

/-- What the producer goroutine does, in order: its `select` on `ctx.Done()` took the
cancellation case in iteration `i` (`observedDone`) or the `default` case (`checked`), and a
call `safeSendToBuffer(buffer, fact)` returned having logged `ev` (`call`) or let a panic out
(`escaped`). -/
inductive ProducerEvent where
  | observedDone (i : Nat)
  | checked (i : Nat)
  | call (fact : Fact) (ev : LogEvent)
  | escaped (r : Panic)
deriving DecidableEq, Repr

/-- Result of running the producer goroutine: the channel, the trace, and whether the
goroutine has ended. -/
structure ProducerRun where
  buffer : Chan
  trace : List ProducerEvent
  finished : Bool
deriving DecidableEq, Repr

/-- The loop `for i := 1; i <= 10; i++ { select { case <-ctx.Done(): return; default: ... } }`
of the producer goroutine, from the value `i` of the loop variable.  `done i` is the state of
`ctx.Done()` seen in iteration `i`; `env i` is what the other goroutines did to the channel
since the previous iteration. -/
def producerLoop (done : Nat → Bool) (env : Nat → Chan → Chan) : Nat → Nat → Chan → ProducerRun
  | 0, _, buffer => ⟨buffer, [], false⟩
  | fuel + 1, i, buffer =>
    if i ≤ 10 then
      if done i then ⟨buffer, [.observedDone i], true⟩
      else
        match safeSendToBuffer (env i buffer) (producerFact i) with
        | .ok (b, ev) =>
          let r := producerLoop done env fuel (i + 1) b
          ⟨r.buffer, .checked i :: .call (producerFact i) ev :: r.trace, r.finished⟩
        | .panic r => ⟨env i buffer, [.checked i, .escaped r], true⟩
    else ⟨buffer, [], true⟩

/-- The producer goroutine of `main`. -/
def producer (done : Nat → Bool) (env : Nat → Chan → Chan) (buffer : Chan) : ProducerRun :=
  producerLoop done env 11 1 buffer

/-- The facts passed to `safeSendToBuffer` in a producer trace, in call order. -/
def callsOf : List ProducerEvent → List Fact
  | [] => []
  | .call fact _ :: rest => fact :: callsOf rest
  | _ :: rest => callsOf rest

/-- The log lines of the `safeSendToBuffer` calls in a producer trace, in call order. -/
def eventsOf : List ProducerEvent → List LogEvent
  | [] => []
  | .call _ ev :: rest => ev :: eventsOf rest
  | _ :: rest => eventsOf rest

/-- The facts of the iterations `i, i + 1, ..., i + n - 1` of the producer. -/
def factsFrom (i : Nat) : Nat → List Fact
  | 0 => []
  | n + 1 => producerFact i :: factsFrom (i + 1) n

/-- The log written by the handler for the facts `xs` when the next call of `sendFact` is
call number `k`: for each fact the "processing" line followed by the line for the outcome of
its single `sendFact` call. -/
def deliveryLog (sendFact : Nat → Fact → Bool) : Nat → List Fact → List LogEvent
  | _, [] => []
  | k, x :: xs =>
    LogEvent.processing x :: (if sendFact k x then LogEvent.saved else LogEvent.sendError)
      :: deliveryLog sendFact (k + 1) xs

/-- One operation on the queue: an enqueue attempt (`safeSendToBuffer`), a dequeue (the
`select` of `processQueue`, with the state of the context and the random choice), or
`close`. -/
inductive Op where
  | enqueue (x : Fact)
  | dequeue (done pick : Bool)
  | close
deriving DecidableEq, Repr

/-- Effect of one operation on the channel.  A panic leaves the channel as it was. -/
def applyOp (c : Chan) : Op → Chan
  | .enqueue x =>
    match safeSendToBuffer c x with
    | .ok (b, _) => b
    | .panic _ => c
  | .dequeue done pick => (selectRecv c done pick).1
  | .close =>
    match chanClose c with
    | .ok b => b
    | .panic _ => c

/-- Effect of a sequence of operations. -/
def applyOps (c : Chan) (ops : List Op) : Chan :=
  ops.foldl applyOp c

/-- Where the shutdown goroutine of `main` stands: before `<-signalChan`, after `cancel()`,
after `close(buffer)`. -/
inductive ShutdownPc where
  | waiting
  | cancelDone
  | closeDone
deriving DecidableEq, Repr

/-- Where the producer goroutine of `main` stands: at the loop test and `select` of iteration
`i`, at the call `safeSendToBuffer` of iteration `i`, or ended. -/
inductive ProducerPc where
  | atSelect (i : Nat)
  | atSend (i : Nat)
  | returned
deriving DecidableEq, Repr

/-- Where the handler goroutine `processQueue` stands. -/
inductive HandlerPc where
  | running
  | returned
deriving DecidableEq, Repr

/-- State of the three goroutines started by `main` and of what they share: the channel, the
context, the facts passed to `sendFact` so far, and a panic that nobody recovered. -/
structure Sys where
  buffer : Chan
  ctxDone : Bool
  shutdown : ShutdownPc
  producer : ProducerPc
  handler : HandlerPc
  calls : List Fact
  panicked : Option Panic
deriving DecidableEq, Repr

/-- One step of one goroutine: the shutdown goroutine receives the signal and runs
`cancel()`; it runs `close(buffer)`; the producer performs its loop test and `select`, or its
call of `safeSendToBuffer`; the handler performs one `select` (and the `sendFact` call on an
item). -/
inductive Action where
  | signal
  | closeBuffer
  | producerStep
  | handlerStep (pick : Bool)
deriving DecidableEq, Repr

/-- The state built by `main` before the goroutines run. -/
def initSys : Sys :=
  { buffer := makeChan 1000
    ctxDone := false
    shutdown := .waiting
    producer := .atSelect 1
    handler := .running
    calls := []
    panicked := none }

/-- Effect of one action; an action that is not enabled leaves the state as it is, and
nothing runs after an unrecovered panic. -/
def step (s : Sys) (a : Action) : Sys :=
  if s.panicked.isSome then s
  else
    match a with
    | .signal =>
      match s.shutdown with
      | .waiting => { s with ctxDone := true, shutdown := .cancelDone }
      | _ => s
    | .closeBuffer =>
      match s.shutdown with
      | .cancelDone =>
        match chanClose s.buffer with
        | .ok b => { s with buffer := b, shutdown := .closeDone }
        | .panic r => { s with panicked := some r }
      | _ => s
    | .producerStep =>
      match s.producer with
      | .atSelect i =>
        if i ≤ 10 then
          if s.ctxDone then { s with producer := .returned }
          else { s with producer := .atSend i }
        else { s with producer := .returned }
      | .atSend i =>
        match safeSendToBuffer s.buffer (producerFact i) with
        | .ok (b, _) => { s with buffer := b, producer := .atSelect (i + 1) }
        | .panic r => { s with panicked := some r }
      | .returned => s
    | .handlerStep pick =>
      match s.handler with
      | .running =>
        match selectRecv s.buffer s.ctxDone pick with
        | (b, .Item fact) => { s with buffer := b, calls := s.calls ++ [fact] }
        | (_, .Closed) => { s with handler := .returned }
        | (_, .Cancelled) => { s with handler := .returned }
        | (_, .Blocked) => s
      | .returned => s

/-- The state reached from `s` by a schedule of actions. -/
def run (s : Sys) (acts : List Action) : Sys :=
  acts.foldl step s

/-- What ties the shared state to the place of the shutdown goroutine: nobody has panicked,
the context is cancelled exactly from `cancel()` on, and the channel is closed exactly from
`close(buffer)` on. -/
def Inv (s : Sys) : Prop :=
  s.panicked = none ∧
  s.ctxDone = decide (s.shutdown ≠ ShutdownPc.waiting) ∧
  s.buffer.closed = decide (s.shutdown = ShutdownPc.closeDone)

/-- The channel holds no more facts than its capacity. -/
def Chan.bounded (c : Chan) : Prop :=
  c.items.length ≤ c.cap

/-- The producer trace in which the iterations `i, i + 1, ...` each take the `default` case
of the select and then call `safeSendToBuffer` once, the calls logging the lines `evs`. -/
def sendTrace : Nat → List LogEvent → List ProducerEvent
  | _, [] => []
  | i, ev :: evs => .checked i :: .call (producerFact i) ev :: sendTrace (i + 1) evs

/-! ## The queue operations -/

theorem safeSendToBuffer_open_room (c : Chan) (x : Fact) (hopen : c.closed = false)
    (hroom : c.items.length < c.cap) :
    safeSendToBuffer c x = .ok ({ c with items := c.items ++ [x] }, .added x) := by
  simp [safeSendToBuffer, safeSendToBufferBody, trySend, hopen, hroom]

theorem safeSendToBuffer_open_full (c : Chan) (x : Fact) (hopen : c.closed = false)
    (hfull : c.cap ≤ c.items.length) :
    safeSendToBuffer c x = .ok (c, .overflow) := by
  simp [safeSendToBuffer, safeSendToBufferBody, trySend, hopen, Nat.not_lt.mpr hfull]

theorem safeSendToBuffer_closed (c : Chan) (x : Fact) (hclosed : c.closed = true) :
    safeSendToBuffer c x = .ok (c, .sendPanic .sendOnClosedChannel) := by
  simp [safeSendToBuffer, safeSendToBufferBody, trySend, hclosed]

theorem sendAll_room (xs : List Fact) :
    ∀ c : Chan, c.closed = false → c.items.length + xs.length ≤ c.cap →
      sendAll c xs = ({ c with items := c.items ++ xs }, xs.map LogEvent.added) := by
  induction xs with
  | nil => intro c _ _; simp [sendAll]
  | cons x xs ih =>
    intro c hopen hlen
    have hroom : c.items.length < c.cap := by simp at hlen; omega
    have h1 := ih { c with items := c.items ++ [x] } hopen (by simp at hlen ⊢; omega)
    simp [sendAll, safeSendToBuffer_open_room c x hopen hroom, h1]

theorem selectRecv_item (c : Chan) (x : Fact) (rest : List Fact) (done pick : Bool)
    (hitems : c.items = x :: rest) (hsel : done = false ∨ pick = true) :
    selectRecv c done pick = ({ c with items := rest }, .Item x) := by
  rcases hsel with h | h <;> simp [selectRecv, recvReady, chanRecv, hitems, h]

theorem selectRecv_closed (c : Chan) (done pick : Bool)
    (hitems : c.items = []) (hclosed : c.closed = true) (hsel : done = false ∨ pick = true) :
    selectRecv c done pick = (c, .Closed) := by
  rcases hsel with h | h <;> simp [selectRecv, recvReady, chanRecv, hitems, hclosed, h]

theorem selectRecv_cancelled (c : Chan) (pick : Bool)
    (hsel : recvReady c = false ∨ pick = false) :
    selectRecv c true pick = (c, .Cancelled) := by
  rcases hsel with h | h <;> simp [selectRecv, h]

theorem recvN_items (done pick : Nat → Bool) (xs : List Fact) :
    ∀ (i : Nat) (c : Chan) (rest : List Fact), c.items = xs ++ rest →
      (∀ j, done j = false ∨ pick j = true) →
      recvN done pick xs.length i c = ({ c with items := rest }, xs.map Dequeue.Item) := by
  induction xs with
  | nil =>
    intro i c rest hitems _
    cases c
    simp_all [recvN]
  | cons x xs ih =>
    intro i c rest hitems hsel
    have h1 := selectRecv_item c x (xs ++ rest) (done i) (pick i) (by simpa using hitems) (hsel i)
    have h2 := ih (i + 1) { c with items := xs ++ rest } rest rfl hsel
    simp [recvN, h1, h2]

/-- C1. FIFO retention: on the open empty channel of capacity `C`, sending `N ≤ C` facts in
order with `safeSendToBuffer` logs "added" for each of them and queues them all, and the
next `N` selects of the handler (context not cancelled, whatever the random choices) return
exactly those facts in the order they were sent, leaving the channel empty. -/
theorem fifo_retention (C : Nat) (xs : List Fact) (pick : Nat → Bool) (hN : xs.length ≤ C) :
    sendAll (makeChan C) xs = ({ items := xs, cap := C, closed := false }, xs.map LogEvent.added) ∧
    (sendAll (makeChan C) xs).2.map LogEvent.outcome = List.replicate xs.length Enqueue.Accepted ∧
    recvN (fun _ => false) pick xs.length 0 (sendAll (makeChan C) xs).1
      = (makeChan C, xs.map Dequeue.Item) := by
  have h1 : sendAll (makeChan C) xs
      = ({ items := xs, cap := C, closed := false }, xs.map LogEvent.added) := by
    have := sendAll_room xs (makeChan C) rfl (by simpa [makeChan] using hN)
    simpa [makeChan] using this
  refine ⟨h1, ?_, ?_⟩
  · rw [h1]
    simp only [List.map_map]
    clear h1 hN
    induction xs with
    | nil => rfl
    | cons x xs ih => simpa [List.replicate, LogEvent.outcome] using ih
  · rw [h1]
    have := recvN_items (fun _ => false) pick xs 0 { items := xs, cap := C, closed := false } []
      (by simp) (fun _ => Or.inl rfl)
    simpa [makeChan] using this

/-- Witness of C1: capacity 3 and two facts. -/
theorem fifo_retention_witness :
    sendAll (makeChan 3) [producerFact 1, producerFact 2]
      = ({ items := [producerFact 1, producerFact 2], cap := 3, closed := false },
          [LogEvent.added (producerFact 1), LogEvent.added (producerFact 2)]) ∧
    (sendAll (makeChan 3) [producerFact 1, producerFact 2]).2.map LogEvent.outcome
      = [Enqueue.Accepted, Enqueue.Accepted] ∧
    recvN (fun _ => false) (fun _ => false) 2 0
        (sendAll (makeChan 3) [producerFact 1, producerFact 2]).1
      = (makeChan 3, [Dequeue.Item (producerFact 1), Dequeue.Item (producerFact 2)]) :=
  fifo_retention 3 [producerFact 1, producerFact 2] (fun _ => false) (by decide)

/-- On a channel with a buffer, handing a value to a receiver parked on the open empty
channel is the send into the buffer followed by the receive: the receiver gets the value and
the channel is empty again. -/
theorem trySend_then_chanRecv (c : Chan) (x : Fact) (hopen : c.closed = false)
    (hempty : c.items = []) (hcap : 0 < c.cap) :
    trySend c x = .ok ({ c with items := [x] }, true) ∧
    chanRecv { c with items := [x] } = (c, Dequeue.Item x) ∧
    trySendParked c x = .ok (c, true) := by
  cases c
  simp_all [trySend, chanRecv, trySendParked]

/-- C2 as stated fails twice.  In the scenario with capacity 2 (facts 1, 2, 3 sent, facts 1
and 2 dequeued, channel closed), the context is cancelled when `main` closes the channel, so
the select of the handler may take the cancellation case: the dequeue after `close` returns
Cancelled, not Closed.  And on the unbuffered channel, which holds as many facts as its
capacity, `safeSendToBuffer` called while the handler is parked in its select hands the fact
over and logs "added", not "buffer full". -/
theorem drop_on_full_counterexample :
    ((sendAll (makeChan 2) [producerFact 1, producerFact 2, producerFact 3]).1
        = { items := [producerFact 1, producerFact 2], cap := 2, closed := false } ∧
      recvN (fun _ => false) (fun _ => false) 2 0
          { items := [producerFact 1, producerFact 2], cap := 2, closed := false }
        = (makeChan 2, [Dequeue.Item (producerFact 1), Dequeue.Item (producerFact 2)]) ∧
      chanClose (makeChan 2) = .ok { items := [], cap := 2, closed := true } ∧
      selectRecv { items := [], cap := 2, closed := true } true false
        = ({ items := [], cap := 2, closed := true }, Dequeue.Cancelled)) ∧
    ((makeChan 0).closed = false ∧
      (makeChan 0).items.length = (makeChan 0).cap ∧
      safeSendToBufferParked (makeChan 0) (producerFact 1)
        = .ok (makeChan 0, .added (producerFact 1))) := by
  refine ⟨⟨?_, ?_, rfl, ?_⟩, rfl, rfl, ?_⟩
  · simp [sendAll, safeSendToBuffer, safeSendToBufferBody, trySend, makeChan]
  · simp [recvN, selectRecv, recvReady, chanRecv, makeChan]
  · simp [selectRecv, recvReady]
  · simp [safeSendToBufferParked, trySendParked, makeChan]

/-- C2, amended.  Drop on full: on an open channel of capacity at least 1 that already holds
as many facts as its capacity, `safeSendToBuffer` returns normally with the "buffer full"
line (outcome Dropped, not "added") and the channel, contents and order included, is the one
it was given.  With capacity 2, sending `A`, `B`, `D` in order gives Accepted, Accepted,
Dropped; as long as the select of the handler does not take the cancellation case (the
context is not cancelled, or the random choice falls on the receive), the next two dequeues
return `A` then `B`, and after `close` the next one returns Closed. -/
theorem drop_on_full (c : Chan) (x A B D : Fact) (done pick : Nat → Bool)
    (hopen : c.closed = false) (hcap : 0 < c.cap) (hfull : c.items.length = c.cap)
    (hsel : ∀ j, done j = false ∨ pick j = true) :
    (c.items ≠ [] ∧ safeSendToBuffer c x = .ok (c, .overflow) ∧
      LogEvent.outcome .overflow = Enqueue.Dropped) ∧
    ((sendAll (makeChan 2) [A, B, D]).2.map LogEvent.outcome
        = [Enqueue.Accepted, Enqueue.Accepted, Enqueue.Dropped] ∧
      (sendAll (makeChan 2) [A, B, D]).1 = { items := [A, B], cap := 2, closed := false } ∧
      recvN done pick 2 0 (sendAll (makeChan 2) [A, B, D]).1
        = (makeChan 2, [Dequeue.Item A, Dequeue.Item B]) ∧
      chanClose (makeChan 2) = .ok { items := [], cap := 2, closed := true } ∧
      selectRecv { items := [], cap := 2, closed := true } (done 2) (pick 2)
        = ({ items := [], cap := 2, closed := true }, Dequeue.Closed)) := by
  have hne : c.items ≠ [] := by
    intro h
    rw [h] at hfull
    simp at hfull
    omega
  refine ⟨⟨hne, safeSendToBuffer_open_full c x hopen (by omega), rfl⟩, ?_⟩
  have hs : sendAll (makeChan 2) [A, B, D]
      = ({ items := [A, B], cap := 2, closed := false },
          [LogEvent.added A, LogEvent.added B, LogEvent.overflow]) := by
    simp [sendAll, safeSendToBuffer, safeSendToBufferBody, trySend, makeChan]
  refine ⟨by rw [hs]; rfl, by rw [hs], ?_, rfl, ?_⟩
  · rw [hs]
    have := recvN_items done pick [A, B] 0 { items := [A, B], cap := 2, closed := false } []
      rfl hsel
    simpa [makeChan] using this
  · exact selectRecv_closed { items := [], cap := 2, closed := true } (done 2) (pick 2)
      rfl rfl (hsel 2)

/-- Witness of C2 amended: the full channel of capacity 2 holding facts 1 and 2, and fact 3;
the context is cancelled and the select takes the receive every time. -/
theorem drop_on_full_witness :
    safeSendToBuffer { items := [producerFact 1, producerFact 2], cap := 2, closed := false }
        (producerFact 3)
      = .ok ({ items := [producerFact 1, producerFact 2], cap := 2, closed := false },
          .overflow) ∧
    selectRecv { items := [], cap := 2, closed := true } true true
      = ({ items := [], cap := 2, closed := true }, Dequeue.Closed) :=
  ⟨(drop_on_full { items := [producerFact 1, producerFact 2], cap := 2, closed := false }
      (producerFact 3) (producerFact 1) (producerFact 2) (producerFact 3) (fun _ => true)
      (fun _ => true) rfl (by decide) rfl (fun _ => Or.inr rfl)).1.2.1,
    (drop_on_full { items := [producerFact 1, producerFact 2], cap := 2, closed := false }
      (producerFact 3) (producerFact 1) (producerFact 2) (producerFact 3) (fun _ => true)
      (fun _ => true) rfl (by decide) rfl (fun _ => Or.inr rfl)).2.2.2.2.2⟩

/-- C4. Enqueue after close: on a closed channel, whatever it holds, `safeSendToBuffer`
returns normally (the panic of the send is recovered inside and does not reach the caller),
the line logged is not "added" (outcome Dropped), and the channel is the one it was given. -/
theorem enqueue_after_close (c : Chan) (x : Fact) (hclosed : c.closed = true) :
    safeSendToBuffer c x = .ok (c, .sendPanic .sendOnClosedChannel) ∧
    LogEvent.outcome (.sendPanic .sendOnClosedChannel) = Enqueue.Dropped ∧
    (∀ r, safeSendToBuffer c x ≠ .panic r) := by
  have h := safeSendToBuffer_closed c x hclosed
  refine ⟨h, rfl, ?_⟩
  intro r hr
  rw [h] at hr
  cases hr

/-- Witness of C4: a closed channel holding one fact, with room left. -/
theorem enqueue_after_close_witness :
    safeSendToBuffer { items := [producerFact 1], cap := 2, closed := true } (producerFact 2)
      = .ok ({ items := [producerFact 1], cap := 2, closed := true },
          .sendPanic .sendOnClosedChannel) :=
  (enqueue_after_close { items := [producerFact 1], cap := 2, closed := true }
    (producerFact 2) rfl).1

theorem recvN_drain (done pick : Nat → Bool) (xs : List Fact) :
    ∀ (i : Nat) (c : Chan), c.items = xs → c.closed = true →
      (∀ j, done j = false ∨ pick j = true) →
      recvN done pick (xs.length + 1) i c
        = ({ c with items := [] }, xs.map Dequeue.Item ++ [Dequeue.Closed]) := by
  induction xs with
  | nil =>
    intro i c hitems hclosed hsel
    have h1 := selectRecv_closed c (done i) (pick i) hitems hclosed (hsel i)
    cases c
    simp_all [recvN]
  | cons x xs ih =>
    intro i c hitems hclosed hsel
    have h1 := selectRecv_item c x xs (done i) (pick i) hitems (hsel i)
    have h2 := ih (i + 1) { c with items := xs } rfl hclosed hsel
    rw [recvN, h1]
    simp only [List.length_cons] at h2 ⊢
    rw [h2]
    simp

/-- C3 as stated fails: in the state reached when the producer has queued fact 1 and the
shutdown goroutine has then run `cancel()` and `close(buffer)`, the select of the handler
may take the cancellation case: the next dequeue returns Cancelled, not fact 1, and the
fact is still in the channel. -/
theorem drain_after_close_counterexample :
    (run initSys [.producerStep, .producerStep, .signal, .closeBuffer]).buffer
      = { items := [producerFact 1], cap := 1000, closed := true } ∧
    (run initSys [.producerStep, .producerStep, .signal, .closeBuffer]).ctxDone = true ∧
    recvN (fun _ => true) (fun _ => false) 2 0
        { items := [producerFact 1], cap := 1000, closed := true }
      = ({ items := [producerFact 1], cap := 1000, closed := true },
          [Dequeue.Cancelled, Dequeue.Cancelled]) := by
  refine ⟨?_, ?_, ?_⟩
  · simp [run, step, initSys, makeChan, safeSendToBuffer, safeSendToBufferBody, trySend,
      chanClose]
  · simp [run, step, initSys, makeChan, safeSendToBuffer, safeSendToBufferBody, trySend,
      chanClose]
  · simp [recvN, selectRecv, recvReady]

/-- C3, amended.  For a closed channel holding `K` facts, as long as the select of the
handler does not take the cancellation case (the context is not cancelled, or the random
choice falls on the receive), the next `K` dequeues return those facts in their original
order and the one after them returns Closed. -/
theorem drain_after_close (c : Chan) (done pick : Nat → Bool) (hclosed : c.closed = true)
    (hsel : ∀ j, done j = false ∨ pick j = true) :
    recvN done pick (c.items.length + 1) 0 c
      = ({ c with items := [] }, c.items.map Dequeue.Item ++ [Dequeue.Closed]) :=
  recvN_drain done pick c.items 0 c rfl hclosed hsel

/-- Witness of C3 amended: a closed channel with two facts, context cancelled, the random
choice always on the receive. -/
theorem drain_after_close_witness :
    recvN (fun _ => true) (fun _ => true) 3 0
        { items := [producerFact 1, producerFact 2], cap := 1000, closed := true }
      = ({ items := [], cap := 1000, closed := true },
          [Dequeue.Item (producerFact 1), Dequeue.Item (producerFact 2), Dequeue.Closed]) :=
  drain_after_close { items := [producerFact 1, producerFact 2], cap := 1000, closed := true }
    (fun _ => true) (fun _ => true) rfl (fun _ => Or.inr rfl)

/-! ## The handler loop -/

theorem processQueueLoop_items (done pick : Nat → Bool) (sendFact : Nat → Fact → Bool)
    (hsel : ∀ j, done j = false ∨ pick j = true) (xs : List Fact) :
    ∀ (fuel n : Nat) (buffer : Chan) (rest calls : List Fact) (log : List LogEvent),
      buffer.items = xs ++ rest →
      processQueueLoop done pick sendFact (xs.length + fuel) n buffer calls log
        = processQueueLoop done pick sendFact fuel (n + xs.length) { buffer with items := rest }
            (calls ++ xs) (log ++ deliveryLog sendFact calls.length xs) := by
  induction xs with
  | nil =>
    intro fuel n buffer rest calls log hitems
    cases buffer
    simp_all [deliveryLog]
  | cons x xs ih =>
    intro fuel n buffer rest calls log hitems
    have h1 := selectRecv_item buffer x (xs ++ rest) (done n) (pick n) hitems (hsel n)
    have hf : (x :: xs).length + fuel = (xs.length + fuel) + 1 := by simp; omega
    rw [hf, processQueueLoop, h1]
    simp only
    rw [ih fuel (n + 1) { buffer with items := xs ++ rest } rest (calls ++ [x]) _ rfl]
    have hn : n + 1 + xs.length = n + (x :: xs).length := by simp; omega
    rw [hn]
    by_cases hs : sendFact calls.length x = true <;> simp [deliveryLog, hs]

theorem processQueueLoop_empty (done pick : Nat → Bool) (sendFact : Nat → Fact → Bool)
    (hsel : ∀ j, done j = false ∨ pick j = true)
    (extra n : Nat) (buffer : Chan) (calls : List Fact) (log : List LogEvent)
    (hitems : buffer.items = []) :
    processQueueLoop done pick sendFact (1 + extra) n buffer calls log
      = { buffer := buffer
          calls := calls
          log := log ++ (if buffer.closed then [LogEvent.bufferClosed]
            else if done n then [LogEvent.handlerStopped] else [])
          status := if buffer.closed then .returnedClosed
            else if done n then .returnedCancelled else .parked } := by
  rw [show 1 + extra = extra + 1 by omega, processQueueLoop]
  by_cases hclosed : buffer.closed = true
  · rw [selectRecv_closed buffer (done n) (pick n) hitems hclosed (hsel n)]
    simp [hclosed]
  · have hopen : buffer.closed = false := by simpa using hclosed
    have hready : recvReady buffer = false := by simp [recvReady, hitems, hopen]
    by_cases hd : done n = true
    · rw [hd, selectRecv_cancelled buffer (pick n) (Or.inl hready)]
      simp [hopen, hd]
    · have hd0 : done n = false := by simpa using hd
      simp [selectRecv, hready, hd0, hopen]

/-- C5. The handler delivers every fact once, in order, whatever `sendFact` answers.  Started
or resumed in any iteration on any channel, open or closed, holding the facts `xs`, with the
select never taking the cancellation case (the context is not cancelled, or the random choice
falls on the receive), the loop of `processQueue` passes exactly the facts `xs` to `sendFact`,
in queue order and one call per fact, after the calls already made: a failed call is not
repeated and does not stop the next one; the log gains for each fact its "processing" line
and the line of its outcome.  The loop then returns on Closed when the channel is closed; on
an open channel it waits for more facts (or returns on the cancellation when the context is
cancelled by then).  In particular `processQueue` run with no cancellation on a closed
channel delivers all its facts and exits on Closed. -/
theorem dispatcher_delivers_each_once (done pick : Nat → Bool) (sendFact : Nat → Fact → Bool)
    (buffer : Chan) (n extra : Nat) (calls : List Fact) (log : List LogEvent)
    (hsel : ∀ j, done j = false ∨ pick j = true) :
    processQueueLoop done pick sendFact (buffer.items.length + 1 + extra) n buffer calls log
      = { buffer := { buffer with items := [] }
          calls := calls ++ buffer.items
          log := log ++ deliveryLog sendFact calls.length buffer.items
            ++ (if buffer.closed then [LogEvent.bufferClosed]
              else if done (n + buffer.items.length) then [LogEvent.handlerStopped] else [])
          status := if buffer.closed then .returnedClosed
            else if done (n + buffer.items.length) then .returnedCancelled else .parked } ∧
    processQueue (fun _ => false) pick sendFact (buffer.items.length + 1 + extra) buffer
      = { buffer := { buffer with items := [] }
          calls := buffer.items
          log := deliveryLog sendFact 0 buffer.items
            ++ (if buffer.closed then [LogEvent.bufferClosed] else [])
          status := if buffer.closed then .returnedClosed else .parked } := by
  have key : ∀ (d : Nat → Bool), (∀ j, d j = false ∨ pick j = true) →
      ∀ (m : Nat) (cs : List Fact) (lg : List LogEvent),
      processQueueLoop d pick sendFact (buffer.items.length + 1 + extra) m buffer cs lg
        = { buffer := { buffer with items := [] }
            calls := cs ++ buffer.items
            log := lg ++ deliveryLog sendFact cs.length buffer.items
              ++ (if buffer.closed then [LogEvent.bufferClosed]
                else if d (m + buffer.items.length) then [LogEvent.handlerStopped] else [])
            status := if buffer.closed then .returnedClosed
              else if d (m + buffer.items.length) then .returnedCancelled else .parked } := by
    intro d hd m cs lg
    rw [Nat.add_assoc, processQueueLoop_items d pick sendFact hd buffer.items (1 + extra) m
      buffer [] cs lg (by simp)]
    rw [processQueueLoop_empty d pick sendFact hd extra _ _ _ _ rfl]
  refine ⟨key done hsel n calls log, ?_⟩
  have h := key (fun _ => false) (fun _ => Or.inl rfl) 0 [] []
  simpa [processQueue] using h

/-- Witness of C5: the open channel of `main` holding facts 9 and 10, every `sendFact` call
failing, the context not cancelled. -/
theorem dispatcher_delivers_each_once_witness :
    processQueue (fun _ => false) (fun _ => false) (fun _ _ => false) 3
        { items := [producerFact 9, producerFact 10], cap := 1000, closed := false }
      = { buffer := { items := [], cap := 1000, closed := false }
          calls := [producerFact 9, producerFact 10]
          log := deliveryLog (fun _ _ => false) 0 [producerFact 9, producerFact 10] ++ []
          status := .parked } :=
  (dispatcher_delivers_each_once (fun _ => false) (fun _ => false) (fun _ _ => false)
    { items := [producerFact 9, producerFact 10], cap := 1000, closed := false } 0 0 [] []
    (fun _ => Or.inl rfl)).2

/-- C6 as stated fails: with the context cancelled and facts 1 to 5 queued in the open
channel, the select of the next iteration may take the receive: it returns fact 1, which is
passed to `sendFact`; with the random choice on the receive every time all five facts are
passed to `sendFact` before the loop exits on the cancellation.  The state is reached in the
program when the producer has queued five facts and the signal arrives. -/
theorem abandon_on_cancel_counterexample :
    selectRecv { items := factsFrom 1 5, cap := 1000, closed := false } true true
      = ({ items := factsFrom 2 4, cap := 1000, closed := false },
          Dequeue.Item (producerFact 1)) ∧
    (processQueue (fun _ => true) (fun _ => true) (fun _ _ => true) 6
        { items := factsFrom 1 5, cap := 1000, closed := false }).calls = factsFrom 1 5 ∧
    (processQueue (fun _ => true) (fun _ => true) (fun _ _ => true) 6
        { items := factsFrom 1 5, cap := 1000, closed := false }).status
      = .returnedCancelled ∧
    (run initSys (List.replicate 10 Action.producerStep ++ [.signal])).buffer
      = { items := factsFrom 1 5, cap := 1000, closed := false } ∧
    (run initSys (List.replicate 10 Action.producerStep ++ [.signal])).ctxDone = true ∧
    (run initSys (List.replicate 10 Action.producerStep ++ [.signal, .handlerStep true])).calls
      = [producerFact 1] := by
  refine ⟨?_, ?_, ?_, ?_, ?_, ?_⟩
  · simp [selectRecv, recvReady, chanRecv, factsFrom]
  · simp [processQueue, processQueueLoop, selectRecv, recvReady, chanRecv, factsFrom]
  · simp [processQueue, processQueueLoop, selectRecv, recvReady, chanRecv, factsFrom]
  · simp [run, step, initSys, makeChan, safeSendToBuffer, safeSendToBufferBody, trySend,
      factsFrom, List.replicate]
  · simp [run, step, initSys, makeChan, safeSendToBuffer, safeSendToBufferBody, trySend,
      List.replicate]
  · simp [run, step, initSys, makeChan, safeSendToBuffer, safeSendToBufferBody, trySend,
      List.replicate, selectRecv, recvReady, chanRecv]

/-- C6, amended.  In an iteration of `processQueue` in which the context is cancelled, the
select takes either ready case.  If it takes the cancellation case, the loop logs "handler
stopped" and returns at once: no further fact is passed to `sendFact` and every fact still in
the channel stays there, undelivered.  If facts are queued and it takes the receive, the
oldest fact is passed to `sendFact` and the loop goes on with the rest. -/
theorem abandon_on_cancel (done pick : Nat → Bool) (sendFact : Nat → Fact → Bool)
    (fuel n : Nat) (buffer : Chan) (calls : List Fact) (log : List LogEvent)
    (hdone : done n = true) :
    (pick n = false →
      processQueueLoop done pick sendFact (fuel + 1) n buffer calls log
        = { buffer := buffer
            calls := calls
            log := log ++ [LogEvent.handlerStopped]
            status := .returnedCancelled }) ∧
    (∀ (x : Fact) (rest : List Fact), pick n = true → buffer.items = x :: rest →
      processQueueLoop done pick sendFact (fuel + 1) n buffer calls log
        = processQueueLoop done pick sendFact fuel (n + 1) { buffer with items := rest }
            (calls ++ [x])
            (log ++ [LogEvent.processing x]
              ++ [if sendFact calls.length x then LogEvent.saved else LogEvent.sendError])) := by
  constructor
  · intro hpick
    rw [processQueueLoop, hdone, selectRecv_cancelled buffer (pick n) (Or.inr hpick)]
  · intro x rest hpick hitems
    rw [processQueueLoop, selectRecv_item buffer x rest (done n) (pick n) hitems (Or.inr hpick)]
    by_cases hs : sendFact calls.length x = true <;> simp [hs]

/-- Witness of C6 amended: five facts queued, context cancelled, the select of the first
iteration takes the cancellation case. -/
theorem abandon_on_cancel_witness :
    processQueueLoop (fun _ => true) (fun _ => false) (fun _ _ => true) 1 0
        { items := factsFrom 1 5, cap := 1000, closed := false } [] []
      = { buffer := { items := factsFrom 1 5, cap := 1000, closed := false }
          calls := []
          log := [] ++ [LogEvent.handlerStopped]
          status := .returnedCancelled } :=
  (abandon_on_cancel (fun _ => true) (fun _ => false) (fun _ _ => true) 0 0
    { items := factsFrom 1 5, cap := 1000, closed := false } [] [] rfl).1 rfl

/-! ## Invariants of the channel and of the program -/

theorem safeSendToBuffer_cases (c : Chan) (x : Fact) :
    safeSendToBuffer c x = .ok (c, .sendPanic .sendOnClosedChannel) ∨
    safeSendToBuffer c x = .ok (c, .overflow) ∨
    (c.closed = false ∧ c.items.length < c.cap ∧
      safeSendToBuffer c x = .ok ({ c with items := c.items ++ [x] }, .added x)) := by
  by_cases hclosed : c.closed = true
  · exact Or.inl (safeSendToBuffer_closed c x hclosed)
  · have hopen : c.closed = false := by simpa using hclosed
    by_cases hroom : c.items.length < c.cap
    · exact Or.inr (Or.inr ⟨hopen, hroom, safeSendToBuffer_open_room c x hopen hroom⟩)
    · exact Or.inr (Or.inl (safeSendToBuffer_open_full c x hopen (by omega)))

theorem safeSendToBuffer_keeps (c : Chan) (x : Fact) :
    ∃ b ev, safeSendToBuffer c x = .ok (b, ev) ∧ b.cap = c.cap ∧ b.closed = c.closed ∧
      (c.bounded → b.bounded) := by
  rcases safeSendToBuffer_cases c x with h | h | ⟨_, hroom, h⟩
  · exact ⟨c, _, h, rfl, rfl, id⟩
  · exact ⟨c, _, h, rfl, rfl, id⟩
  · refine ⟨_, _, h, rfl, rfl, ?_⟩
    intro _
    simp only [Chan.bounded, List.length_append, List.length_singleton]
    omega

theorem selectRecv_keeps (c : Chan) (done pick : Bool) :
    (selectRecv c done pick).1.cap = c.cap ∧ (selectRecv c done pick).1.closed = c.closed ∧
      (selectRecv c done pick).1.items.length ≤ c.items.length := by
  unfold selectRecv chanRecv
  split
  · split
    · rename_i x rest hitems
      simp [hitems]
    · split <;> simp
  · split <;> simp

theorem chanClose_open (c : Chan) (hopen : c.closed = false) :
    chanClose c = .ok { c with closed := true } := by
  simp [chanClose, hopen]

theorem applyOp_keeps (c : Chan) (op : Op) :
    (applyOp c op).cap = c.cap ∧ (c.bounded → (applyOp c op).bounded) := by
  cases op with
  | enqueue x =>
    obtain ⟨b, ev, h, hcap, _, hb⟩ := safeSendToBuffer_keeps c x
    simp only [applyOp, h]
    exact ⟨hcap, hb⟩
  | dequeue done pick =>
    obtain ⟨hcap, _, hlen⟩ := selectRecv_keeps c done pick
    simp only [applyOp, Chan.bounded]
    exact ⟨hcap, fun hc => by omega⟩
  | close =>
    simp only [applyOp, chanClose]
    split <;> rename_i h
    · split at h
      · cases h
      · cases h
        exact ⟨rfl, id⟩
    · exact ⟨rfl, id⟩

theorem applyOps_keeps (ops : List Op) :
    ∀ c : Chan, (applyOps c ops).cap = c.cap ∧ (c.bounded → (applyOps c ops).bounded) := by
  induction ops with
  | nil => intro c; exact ⟨rfl, id⟩
  | cons op ops ih =>
    intro c
    obtain ⟨h1, h2⟩ := applyOp_keeps c op
    obtain ⟨h3, h4⟩ := ih (applyOp c op)
    simp only [applyOps, List.foldl_cons] at h3 h4 ⊢
    exact ⟨h3.trans h1, fun hc => h4 (h2 hc)⟩

theorem step_buffer (s : Sys) (a : Action) :
    (step s a).buffer.cap = s.buffer.cap ∧ (s.buffer.bounded → (step s a).buffer.bounded) := by
  unfold step
  split
  · exact ⟨rfl, id⟩
  · cases a with
    | signal => simp only; split <;> exact ⟨rfl, id⟩
    | closeBuffer =>
      simp only
      split
      · have := applyOp_keeps s.buffer .close
        simp only [applyOp] at this
        split <;> simp_all
      · exact ⟨rfl, id⟩
    | producerStep =>
      simp only
      split
      · split
        · split <;> exact ⟨rfl, id⟩
        · exact ⟨rfl, id⟩
      · rename_i i _
        obtain ⟨b, ev, h, hcap, _, hb⟩ := safeSendToBuffer_keeps s.buffer (producerFact i)
        rw [h]
        exact ⟨hcap, hb⟩
      · exact ⟨rfl, id⟩
    | handlerStep pick =>
      simp only
      split
      · obtain ⟨hcap, _, hlen⟩ := selectRecv_keeps s.buffer s.ctxDone pick
        split <;> rename_i h <;> simp only [h] at hcap hlen
        · exact ⟨hcap, fun hc => by simp only [Chan.bounded] at hc ⊢; omega⟩
        · exact ⟨rfl, id⟩
        · exact ⟨rfl, id⟩
        · exact ⟨rfl, id⟩
      · exact ⟨rfl, id⟩

theorem run_buffer (acts : List Action) :
    ∀ s : Sys, (run s acts).buffer.cap = s.buffer.cap ∧
      (s.buffer.bounded → (run s acts).buffer.bounded) := by
  induction acts with
  | nil => intro s; exact ⟨rfl, id⟩
  | cons a acts ih =>
    intro s
    obtain ⟨h1, h2⟩ := step_buffer s a
    obtain ⟨h3, h4⟩ := ih (step s a)
    simp only [run, List.foldl_cons] at h3 h4 ⊢
    exact ⟨h3.trans h1, fun hc => h4 (h2 hc)⟩

/-- C8. Capacity invariant: for every capacity `C`, after any sequence of enqueue attempts
(`safeSendToBuffer`), dequeues (the select of `processQueue`, whatever the context and the
random choice) and `close` operations applied to the open empty channel of capacity `C`, the
channel holds at most `C` facts; the channel of `main` has capacity 1000 and holds at most
1000 facts after any schedule of the goroutines. -/
theorem capacity_invariant (C : Nat) (ops : List Op) (acts : List Action) :
    (applyOps (makeChan C) ops).items.length ≤ C ∧
    initSys.buffer = makeChan 1000 ∧
    (run initSys acts).buffer.items.length ≤ 1000 := by
  obtain ⟨h1, h2⟩ := applyOps_keeps ops (makeChan C)
  obtain ⟨h3, h4⟩ := run_buffer acts initSys
  have hb : (makeChan C).bounded := by simp [Chan.bounded, makeChan]
  have hb1 : initSys.buffer.bounded := by simp [Chan.bounded, makeChan, initSys]
  refine ⟨?_, rfl, ?_⟩
  · have := h2 hb
    simp only [Chan.bounded, h1] at this
    simpa [makeChan] using this
  · have := h4 hb1
    simp only [Chan.bounded, h3] at this
    simpa [makeChan, initSys] using this

theorem step_inv (s : Sys) (a : Action) (h : Inv s) : Inv (step s a) := by
  obtain ⟨hp, hd, hc⟩ := h
  unfold step
  simp only [hp, Option.isSome_none, Bool.false_eq_true, if_false]
  cases a with
  | signal =>
    cases hsd : s.shutdown <;> simp_all [Inv]
  | closeBuffer =>
    cases hsd : s.shutdown <;> simp_all [Inv, chanClose]
  | producerStep =>
    cases hpr : s.producer with
    | atSelect i =>
      simp only
      split
      · split <;> exact ⟨rfl, hd, hc⟩
      · exact ⟨rfl, hd, hc⟩
    | atSend i =>
      obtain ⟨b, ev, h, _, hcl, _⟩ := safeSendToBuffer_keeps s.buffer (producerFact i)
      simp only [h]
      exact ⟨rfl, hd, hcl.trans hc⟩
    | returned => exact ⟨hp, hd, hc⟩
  | handlerStep pick =>
    cases hh : s.handler with
    | running =>
      obtain ⟨_, hcl, _⟩ := selectRecv_keeps s.buffer s.ctxDone pick
      simp only
      split <;> rename_i h <;> simp only [h] at hcl
      · exact ⟨rfl, hd, hcl.trans hc⟩
      · exact ⟨rfl, hd, hc⟩
      · exact ⟨rfl, hd, hc⟩
      · exact ⟨hp, hd, hc⟩
    | returned => exact ⟨hp, hd, hc⟩

theorem run_inv (acts : List Action) : ∀ s : Sys, Inv s → Inv (run s acts) := by
  induction acts with
  | nil => intro s h; exact h
  | cons a acts ih =>
    intro s h
    simpa only [run, List.foldl_cons] using ih (step s a) (step_inv s a h)

theorem initSys_inv : Inv initSys := by
  simp [Inv, initSys, makeChan]

/-- C7 as stated fails: the producer takes the `default` case of its select, then the
shutdown goroutine runs `cancel()`; in the state reached the context is cancelled, the
producer is about to call `safeSendToBuffer`, and the call puts fact 1 into the still open
channel. -/
theorem no_accept_after_cancel_counterexample :
    (run initSys [.producerStep, .signal]).ctxDone = true ∧
    (run initSys [.producerStep, .signal]).producer = .atSend 1 ∧
    (run initSys [.producerStep, .signal]).buffer = makeChan 1000 ∧
    safeSendToBuffer (makeChan 1000) (producerFact 1)
      = .ok ({ items := [producerFact 1], cap := 1000, closed := false },
          .added (producerFact 1)) ∧
    (run initSys [.producerStep, .signal, .producerStep]).buffer.items = [producerFact 1] := by
  refine ⟨?_, ?_, ?_, ?_, ?_⟩ <;>
    simp [run, step, initSys, makeChan, safeSendToBuffer, safeSendToBufferBody, trySend]

/-- C7, amended.  In every state of the program reached after `cancel()` has been called,
a call of `safeSendToBuffer` accepts no fact once `close(buffer)` has run as well (the send
panics, the panic is recovered and the channel is unchanged); between `cancel()` and
`close(buffer)` the channel is still open, and the call accepts the fact exactly when the
channel is not full. -/
theorem no_accept_after_close (acts : List Action) (fact : Fact)
    (hdone : (run initSys acts).ctxDone = true) :
    ((run initSys acts).shutdown = .closeDone ∧
      safeSendToBuffer (run initSys acts).buffer fact
        = .ok ((run initSys acts).buffer, .sendPanic .sendOnClosedChannel)) ∨
    ((run initSys acts).shutdown = .cancelDone ∧
      (run initSys acts).buffer.closed = false ∧
      safeSendToBuffer (run initSys acts).buffer fact
        = if (run initSys acts).buffer.items.length < (run initSys acts).buffer.cap then
            .ok ({ (run initSys acts).buffer with
                    items := (run initSys acts).buffer.items ++ [fact] }, .added fact)
          else .ok ((run initSys acts).buffer, .overflow)) := by
  obtain ⟨_, hd, hc⟩ := run_inv acts initSys initSys_inv
  generalize run initSys acts = s at hdone hd hc ⊢
  cases hsd : s.shutdown with
  | waiting => simp [hsd, hdone] at hd
  | cancelDone =>
    right
    have hopen : s.buffer.closed = false := by simpa [hsd] using hc
    refine ⟨rfl, hopen, ?_⟩
    split
    · rename_i hroom
      exact safeSendToBuffer_open_room s.buffer fact hopen hroom
    · rename_i hroom
      exact safeSendToBuffer_open_full s.buffer fact hopen (by omega)
  | closeDone =>
    left
    have hclosed : s.buffer.closed = true := by simpa [hsd] using hc
    exact ⟨rfl, safeSendToBuffer_closed s.buffer fact hclosed⟩

/-- Witness of C7 amended: the schedule in which the producer queues fact 1 and the shutdown
goroutine then runs `cancel()` and `close(buffer)`. -/
theorem no_accept_after_close_witness :
    (run initSys [.producerStep, .producerStep, .signal, .closeBuffer]).ctxDone = true ∧
    (((run initSys [.producerStep, .producerStep, .signal, .closeBuffer]).shutdown = .closeDone ∧
      safeSendToBuffer (run initSys [.producerStep, .producerStep, .signal, .closeBuffer]).buffer
          (producerFact 2)
        = .ok ((run initSys [.producerStep, .producerStep, .signal, .closeBuffer]).buffer,
            .sendPanic .sendOnClosedChannel)) ∨
    ((run initSys [.producerStep, .producerStep, .signal, .closeBuffer]).shutdown = .cancelDone ∧
      (run initSys [.producerStep, .producerStep, .signal, .closeBuffer]).buffer.closed = false ∧
      safeSendToBuffer (run initSys [.producerStep, .producerStep, .signal, .closeBuffer]).buffer
          (producerFact 2)
        = if (run initSys [.producerStep, .producerStep, .signal, .closeBuffer]).buffer.items.length
              < (run initSys [.producerStep, .producerStep, .signal, .closeBuffer]).buffer.cap then
            .ok ({ (run initSys [.producerStep, .producerStep, .signal, .closeBuffer]).buffer with
                    items := (run initSys
                      [.producerStep, .producerStep, .signal, .closeBuffer]).buffer.items
                        ++ [producerFact 2] }, .added (producerFact 2))
          else .ok ((run initSys [.producerStep, .producerStep, .signal, .closeBuffer]).buffer,
            .overflow))) :=
  have hdone : (run initSys [.producerStep, .producerStep, .signal, .closeBuffer]).ctxDone
      = true := by
    simp [run, step, initSys, makeChan, safeSendToBuffer, safeSendToBufferBody, trySend,
      chanClose]
  ⟨hdone, no_accept_after_close [.producerStep, .producerStep, .signal, .closeBuffer]
    (producerFact 2) hdone⟩

/-! ## The producer goroutine -/

theorem callsOf_sendTrace (evs : List LogEvent) :
    ∀ i : Nat, callsOf (sendTrace i evs) = factsFrom i evs.length := by
  induction evs with
  | nil => intro i; rfl
  | cons ev evs ih => intro i; simp [sendTrace, callsOf, factsFrom, ih]

theorem callsOf_append_observedDone (tr : List ProducerEvent) (k : Nat) :
    callsOf (tr ++ [.observedDone k]) = callsOf tr := by
  induction tr with
  | nil => rfl
  | cons e tr ih => cases e <;> simp [callsOf, ih]

theorem producerLoop_until_done (done : Nat → Bool) (env : Nat → Chan → Chan) (k : Nat)
    (hk : k ≤ 10) (hdone : done k = true) :
    ∀ (m extra i : Nat) (buffer : Chan), i + m = k →
      (∀ j, i ≤ j → j < k → done j = false) →
      ∃ evs : List LogEvent, evs.length = m ∧
        (producerLoop done env (m + 1 + extra) i buffer).trace
          = sendTrace i evs ++ [.observedDone k] ∧
        (producerLoop done env (m + 1 + extra) i buffer).finished = true := by
  intro m
  induction m with
  | zero =>
    intro extra i buffer hik _
    have hi : i = k := by omega
    subst hi
    refine ⟨[], rfl, ?_, ?_⟩ <;>
      simp [show 0 + 1 + extra = extra + 1 by omega, producerLoop, hk, hdone, sendTrace]
  | succ m ih =>
    intro extra i buffer hik hbefore
    have hi : i ≤ 10 := by omega
    have hnot : done i = false := hbefore i (le_refl i) (by omega)
    obtain ⟨b, ev, hsend, _⟩ := safeSendToBuffer_keeps (env i buffer) (producerFact i)
    obtain ⟨evs, hlen, htr, hfin⟩ := ih extra (i + 1) b (by omega)
      (fun j hj hjk => hbefore j (by omega) hjk)
    refine ⟨ev :: evs, by simp [hlen], ?_, ?_⟩
    · rw [show m + 1 + 1 + extra = (m + 1 + extra) + 1 by omega, producerLoop]
      simp [hi, hnot, hsend, htr, sendTrace]
    · rw [show m + 1 + 1 + extra = (m + 1 + extra) + 1 by omega, producerLoop]
      simp [hi, hnot, hsend, hfin]

theorem producerLoop_all (env : Nat → Chan → Chan) :
    ∀ (m extra i : Nat) (buffer : Chan), i + m = 11 →
      ∃ evs : List LogEvent, evs.length = m ∧
        (producerLoop (fun _ => false) env (m + 1 + extra) i buffer).trace = sendTrace i evs ∧
        (producerLoop (fun _ => false) env (m + 1 + extra) i buffer).finished = true := by
  intro m
  induction m with
  | zero =>
    intro extra i buffer hik
    have hi : ¬ i ≤ 10 := by omega
    refine ⟨[], rfl, ?_, ?_⟩ <;>
      simp [show 0 + 1 + extra = extra + 1 by omega, producerLoop, hi, sendTrace]
  | succ m ih =>
    intro extra i buffer hik
    have hi : i ≤ 10 := by omega
    obtain ⟨b, ev, hsend, _⟩ := safeSendToBuffer_keeps (env i buffer) (producerFact i)
    obtain ⟨evs, hlen, htr, hfin⟩ := ih extra (i + 1) b (by omega)
    refine ⟨ev :: evs, by simp [hlen], ?_, ?_⟩
    · rw [show m + 1 + 1 + extra = (m + 1 + extra) + 1 by omega, producerLoop]
      simp [hi, hsend, htr, sendTrace]
    · rw [show m + 1 + 1 + extra = (m + 1 + extra) + 1 by omega, producerLoop]
      simp [hi, hsend, hfin]

theorem producerLoop_alone :
    ∀ (m extra i : Nat) (buffer : Chan), i + m = 11 → buffer.closed = false →
      (producerLoop (fun _ => false) (fun _ b => b) (m + 1 + extra) i buffer).buffer
        = { buffer with items := buffer.items
              ++ factsFrom i (min m (buffer.cap - buffer.items.length)) } ∧
      eventsOf (producerLoop (fun _ => false) (fun _ b => b) (m + 1 + extra) i buffer).trace
        = (factsFrom i (min m (buffer.cap - buffer.items.length))).map LogEvent.added
          ++ List.replicate (m - min m (buffer.cap - buffer.items.length)) LogEvent.overflow := by
  intro m
  induction m with
  | zero =>
    intro extra i buffer hik _
    have hi : ¬ i ≤ 10 := by omega
    constructor <;>
      simp [show 0 + 1 + extra = extra + 1 by omega, producerLoop, hi, factsFrom, eventsOf]
  | succ m ih =>
    intro extra i buffer hik hopen
    have hi : i ≤ 10 := by omega
    rw [show m + 1 + 1 + extra = (m + 1 + extra) + 1 by omega, producerLoop]
    by_cases hroom : buffer.items.length < buffer.cap
    · have hsend := safeSendToBuffer_open_room buffer (producerFact i) hopen hroom
      obtain ⟨h1, h2⟩ := ih extra (i + 1) { buffer with items := buffer.items ++ [producerFact i] }
        (by omega) hopen
      have hmin : min (m + 1) (buffer.cap - buffer.items.length)
          = min m (buffer.cap - (buffer.items.length + 1)) + 1 := by omega
      have hsub : m + 1 - (min m (buffer.cap - (buffer.items.length + 1)) + 1)
          = m - min m (buffer.cap - (buffer.items.length + 1)) := by omega
      simp only [List.length_append, List.length_singleton] at h1 h2
      simp only [hi, if_true, Bool.false_eq_true, if_false, hsend, h1, h2, hmin, hsub,
        factsFrom, eventsOf, List.append_assoc, List.singleton_append, List.map_cons,
        List.cons_append, List.nil_append, and_self]
    · have hsend := safeSendToBuffer_open_full buffer (producerFact i) hopen (by omega)
      obtain ⟨h1, h2⟩ := ih extra (i + 1) buffer (by omega) hopen
      have hzero : buffer.cap - buffer.items.length = 0 := by omega
      simp only [hzero, Nat.min_zero, Nat.zero_min, factsFrom, List.append_nil, List.map_nil,
        List.nil_append, Nat.sub_zero] at h1 h2 ⊢
      simp only [hi, if_true, Bool.false_eq_true, if_false, hsend, h1, h2, eventsOf,
        List.replicate_succ, and_true]

/-- C9. The producer stops on cancellation: if iteration `k` (between 1 and 10) is the first
one whose select sees the context cancelled, the producer goroutine does exactly this: in each
of the iterations `1, ..., k - 1` it takes the `default` case and then calls
`safeSendToBuffer` once with the fact of that iteration, in iteration `k` it takes the
cancellation case, and it ends there; so the facts it tries to enqueue are those of the
iterations before `k` and none is tried in iteration `k` or later, whatever the other
goroutines do to the channel. -/
theorem producer_stops_on_cancel (done : Nat → Bool) (env : Nat → Chan → Chan) (buffer : Chan)
    (k : Nat) (hk1 : 1 ≤ k) (hk10 : k ≤ 10) (hdone : done k = true)
    (hbefore : ∀ j, 1 ≤ j → j < k → done j = false) :
    (∃ evs : List LogEvent, evs.length = k - 1 ∧
      (producer done env buffer).trace = sendTrace 1 evs ++ [.observedDone k]) ∧
    callsOf (producer done env buffer).trace = factsFrom 1 (k - 1) ∧
    (producer done env buffer).finished = true := by
  obtain ⟨evs, hlen, htr, hfin⟩ := producerLoop_until_done done env k hk10 hdone (k - 1)
    (10 - (k - 1)) 1 buffer (by omega) hbefore
  have hfuel : k - 1 + 1 + (10 - (k - 1)) = 11 := by omega
  rw [hfuel] at htr hfin
  refine ⟨⟨evs, hlen, htr⟩, ?_, hfin⟩
  simp only [producer, htr, callsOf_append_observedDone, callsOf_sendTrace, hlen]

/-- Witness of C9: the context is seen cancelled from iteration 3 on, the channel of `main`
is untouched by the other goroutines. -/
theorem producer_stops_on_cancel_witness :
    callsOf (producer (fun j => decide (3 ≤ j)) (fun _ b => b) (makeChan 1000)).trace
      = factsFrom 1 (3 - 1) ∧
    (producer (fun j => decide (3 ≤ j)) (fun _ b => b) (makeChan 1000)).finished = true :=
  (producer_stops_on_cancel (fun j => decide (3 ≤ j)) (fun _ b => b) (makeChan 1000) 3
    (by decide) (by decide) (by decide)
    (fun j _ hj => by simpa using hj)).2

/-- C10. The producer continues after a drop: with the context never seen cancelled, the
producer goroutine makes exactly 10 calls of `safeSendToBuffer`, with the facts of Value
1, 2, ..., 10 in that order, each after one select, and then ends, whatever the channel holds
and whatever the other goroutines do to it; started alone on an open channel, the facts
accepted are the first ones, as many as there is room for, they are appended in that order
after the facts already queued, and every later call logs "buffer full". -/
theorem producer_continues_after_drop (env : Nat → Chan → Chan) (buffer : Chan)
    (hopen : buffer.closed = false) :
    ((∃ evs : List LogEvent, evs.length = 10 ∧
        (producer (fun _ => false) env buffer).trace = sendTrace 1 evs) ∧
      callsOf (producer (fun _ => false) env buffer).trace = factsFrom 1 10 ∧
      (factsFrom 1 10).map Fact.Value = [1, 2, 3, 4, 5, 6, 7, 8, 9, 10] ∧
      (producer (fun _ => false) env buffer).finished = true) ∧
    ((producer (fun _ => false) (fun _ b => b) buffer).buffer
        = { buffer with items := buffer.items
              ++ factsFrom 1 (min 10 (buffer.cap - buffer.items.length)) } ∧
      eventsOf (producer (fun _ => false) (fun _ b => b) buffer).trace
        = (factsFrom 1 (min 10 (buffer.cap - buffer.items.length))).map LogEvent.added
          ++ List.replicate (10 - min 10 (buffer.cap - buffer.items.length))
              LogEvent.overflow) := by
  obtain ⟨evs, hlen, htr, hfin⟩ := producerLoop_all env 10 0 1 buffer rfl
  refine ⟨⟨⟨evs, hlen, htr⟩, ?_, ?_, hfin⟩, ?_⟩
  · show callsOf (producerLoop (fun _ => false) env (10 + 1 + 0) 1 buffer).trace = _
    rw [htr, callsOf_sendTrace, hlen]
  · simp [factsFrom, producerFact]
  · exact producerLoop_alone 10 0 1 buffer rfl hopen

/-- Witness of C10: the open channel of capacity 3 that already holds fact 7; two facts are
accepted and eight are dropped. -/
theorem producer_continues_after_drop_witness :
    callsOf (producer (fun _ => false) (fun _ b => b)
        { items := [producerFact 7], cap := 3, closed := false }).trace = factsFrom 1 10 ∧
    (producer (fun _ => false) (fun _ b => b)
        { items := [producerFact 7], cap := 3, closed := false }).buffer
      = { items := [producerFact 7] ++ factsFrom 1 (min 10 (3 - 1)), cap := 3,
          closed := false } :=
  ⟨(producer_continues_after_drop (fun _ b => b)
      { items := [producerFact 7], cap := 3, closed := false } rfl).1.2.1,
    (producer_continues_after_drop (fun _ b => b)
      { items := [producerFact 7], cap := 3, closed := false } rfl).2.1⟩

end Buffer
